import Mathlib

/-!
Verification of the semantic match & rerank pipeline of the career-coach
service: embedding shard loading (`app/startup/load_embeddings.py`), the
FAISS-backed vector search wrapper (`search_top_k`), the candidate fetcher,
the two-stage LLM-assisted narrowing, and the seniority classifier
(`app/services/match_service.py`).

The external collaborators (YandexGPT completions, the FAISS graph search,
MongoDB) are modelled as oracle parameters: a completion outcome value, a
graph-search function stored in the index state, and an in-memory document
list.  Machine floats are modelled by real numbers.
-/

namespace CareerCoach

/-! ## Data model

`Candidate` records live in MongoDB; string attributes default to the empty
string, mirroring `d.get(key, "")` access in the service code. -/

structure Vacancy where
  idx : Int
  title : String
  description : String
  key_skills : String
  company : String
  location : String
  salary : String
  experience : String
  job_type : String
  hh_url : String
deriving DecidableEq, Repr

/-- Python exception values raised by the pipeline: `RuntimeError(msg)` and
`ValueError(msg)`. -/
inductive PyError where
  | runtimeError (msg : String)
  | valueError (msg : String)
deriving DecidableEq, Repr

/-! ## Candidate fetcher (`MatchService.fetch_vacancies_in_order`)

`by_idx = {int(d["idx"]): d for d in docs if "idx" in d}` builds a map where
the last document with a given `idx` wins; the comprehension then walks
`top_idx` keeping only present keys. -/

/-- The dict comprehension over `docs` keyed by `idx`: the last binding for
a key wins, i.e. the first match in the reversed list. -/
def byIdx (docs : List Vacancy) (i : Int) : Option Vacancy :=
  docs.reverse.find? (fun d => d.idx == i)

/-- Walk `top_idx`, keep ids present in the dict, look each one up, and
drop `None` entries. -/
def fetch_vacancies_in_order (docs : List Vacancy) (top_idx : List Int) : List Vacancy :=
  top_idx.filterMap (byIdx docs)

/-! ## Staged selector (`MatchService.stage1_select` / `stage2_select`) -/

/-- Outcome of one `run_structured_completion` round trip, as discriminated
by `stage1_select`: a `RuntimeError` from the SDK (re-raised), a falsy raw
response (`return []`), any other exception such as a JSON parse failure
(`return []`), or a parsed `{"selected": [...]}` payload whose entries
survived the `isinstance(x, int)` filter. -/
inductive SelectOutcome where
  | transport (msg : String)
  | emptyRaw
  | parseFailure
  | parsed (selected : List Int)
deriving DecidableEq, Repr

/-- Stage-1 selection: returns `selected[:limit]` on success; `limit` comes
from pydantic fields with `ge=1`, so the slice bound is a natural number. -/
def stage1_select (resp : SelectOutcome) (limit : Nat) : Except PyError (List Int) :=
  match resp with
  | .transport msg => .error (.runtimeError ("YandexGPT API error: " ++ msg))
  | .emptyRaw => .ok []
  | .parseFailure => .ok []
  | .parsed sel => .ok (sel.take limit)

/-- Stage-2 selection simply delegates to `stage1_select`. -/
def stage2_select (resp : SelectOutcome) (limit : Nat) : Except PyError (List Int) :=
  stage1_select resp limit

/-- One narrowing step of `match_vacancies`:
`[d for d in ordered if int(d["idx"]) in selected][:limit] or ordered[:limit]`.
The `or` falls back to the prefix of the input exactly when the filtered
list is empty. -/
def stageNarrow (ordered : List Vacancy) (sel : List Int) (limit : Nat) : List Vacancy :=
  if ((ordered.filter (fun d => sel.contains d.idx)).take limit).isEmpty then
    ordered.take limit
  else
    (ordered.filter (fun d => sel.contains d.idx)).take limit

/-! ## Attribute classifier (`MatchService.determine_seniority_level`) -/

/-- Python `str.lower` restricted to the alphabets the keyword lists use:
ASCII (`Char.toLower`) plus the Cyrillic uppercase range and Ё. -/
def ruLowerChar (c : Char) : Char :=
  if 0x410 ≤ c.toNat ∧ c.toNat ≤ 0x42F then Char.ofNat (c.toNat + 0x20)
  else if c.toNat = 0x401 then Char.ofNat 0x451
  else c.toLower

/-- Lower-case every character of a string, as `.lower()` does. -/
def pyLower (s : String) : String :=
  String.mk (s.data.map ruLowerChar)

/-- Python `needle in haystack` on strings: some suffix of the haystack
starts with the needle. -/
def subList (needle : List Char) : List Char → Bool
  | [] => needle.isEmpty
  | c :: rest => needle.isPrefixOf (c :: rest) || subList needle rest

/-- Membership test `word in text` for strings. -/
def containsWord (text w : String) : Bool :=
  subList w.data text.data

/-- Test `any(word in text for word in words)`. -/
def anyWordIn (ws : List String) (text : String) : Bool :=
  ws.any (fun w => containsWord text w)

def internWords : List String := ["стажер", "intern", "trainee", "без опыта", "обучение"]

def headWords : List String :=
  ["руководитель", "директор", "head", "director", "chief", "cfo", "ceo", "cdo", "lead"]

def expertWords : List String := ["эксперт", "expert", "principal", "staff"]

def advancedWords : List String := ["senior", "старший", "ведущий", "опыт от 3", "опыт от 5"]

def midWords : List String := ["middle", "средний", "опыт от 1", "опыт от 2"]

def entryWords : List String := ["junior", "младший", "начальный", "entry"]

/-- The classifier's combined text: the four lower-cased attributes joined
with single spaces, as the f-string in the source builds it. -/
def combinedText (v : Vacancy) : String :=
  pyLower v.title ++ " " ++ pyLower v.description ++ " " ++ pyLower v.experience
    ++ " " ++ pyLower v.key_skills

/-- The keyword cascade of `determine_seniority_level`, in source order:
Intern, Head, Expert, Advanced, Mid, Entry; `none` when no set matches. -/
def keywordLevel (text : String) : Option String :=
  if anyWordIn internWords text then some "Стажер"
  else if anyWordIn headWords text then some "Руководитель"
  else if anyWordIn expertWords text then some "Эксперт"
  else if anyWordIn advancedWords text then some "Продвинутый"
  else if anyWordIn midWords text then some "Средний"
  else if anyWordIn entryWords text then some "Начальный"
  else none

/-- The keyword cascade as an ordered precedence table, the way the spec
describes it: keyword sets paired with labels, first match winning. -/
def seniorityTable : List (List String × String) :=
  [(internWords, "Стажер"), (headWords, "Руководитель"), (expertWords, "Эксперт"),
    (advancedWords, "Продвинутый"), (midWords, "Средний"), (entryWords, "Начальный")]

def validLevels : List String :=
  ["Стажер", "Начальный", "Средний", "Продвинутый", "Эксперт", "Руководитель"]

/-- The LLM-fallback scan: `for level in valid_levels: if level.lower() in
result.lower(): return level`, defaulting to Mid. -/
def llmLevel (answer : String) : String :=
  match validLevels.find? (fun lvl => containsWord (pyLower answer) (pyLower lvl)) with
  | some lvl => lvl
  | none => "Средний"

/-- Seniority classification.  The assisting-model call is an oracle:
`none` models any raised exception (`RuntimeError` and the catch-all branch
both return Mid), `some ans` the returned free text.  The function is total:
classification never raises. -/
def determine_seniority_level (llm : Option String) (v : Vacancy) : String :=
  match keywordLevel (combinedText v) with
  | some lvl => lvl
  | none =>
    match llm with
    | none => "Средний"
    | some ans => llmLevel ans

/-! ## Match pipeline (`MatchService.match_vacancies`), downstream of the
vector search.  The two completion outcomes and the per-vacancy classifier
oracle are parameters; `top_idx_list` is the id list the vector search
returned. -/

/-- Caller-chosen size bounds; pydantic enforces `ge=1` on all three. -/
structure MatchRequest where
  k_faiss : Nat
  k_stage1 : Nat
  k_stage2 : Nat
deriving DecidableEq, Repr

structure MatchedVacancy where
  idx : Int
  title : String
  company : String
  location : String
  salary : String
  experience : String
  job_type : String
  description : String
  key_skills : String
  hh_url : String
  seniority_level : String
deriving DecidableEq, Repr

structure MatchVacanciesResponse where
  top_idx : List Int
  stage1 : List Int
  result : List MatchedVacancy
deriving DecidableEq, Repr

/-- Construction of one `MatchedVacancy`, including the
`d.get("hh_url", "") or f"https://hh.ru/vacancy/{...}"` default and the
seniority classification. -/
def toMatched (llmCls : Vacancy → Option String) (d : Vacancy) : MatchedVacancy :=
  { idx := d.idx
    title := d.title
    company := d.company
    location := d.location
    salary := d.salary
    experience := d.experience
    job_type := d.job_type
    description := d.description
    key_skills := d.key_skills
    hh_url := if d.hh_url ≠ "" then d.hh_url else "https://hh.ru/vacancy/" ++ toString d.idx
    seniority_level := determine_seniority_level (llmCls d) d }

/-- The match pipeline from the fetch step onward: fetch documents in search
order, return an empty result when none are found, otherwise run the two
narrowing stages (a stage transport error propagates) and classify the
finalists.  `stage1 := list(stage1_selected)` materialises a Python set; we
keep first occurrences. -/
def match_vacancies (docs : List Vacancy) (top_idx_list : List Int)
    (resp1 resp2 : SelectOutcome) (llmCls : Vacancy → Option String)
    (req : MatchRequest) : Except PyError MatchVacanciesResponse :=
  let ordered := fetch_vacancies_in_order docs top_idx_list
  if ordered.isEmpty then
    .ok { top_idx := top_idx_list, stage1 := [], result := [] }
  else
    match stage1_select resp1 req.k_stage1 with
    | .error e => .error e
    | .ok sel1 =>
      let stage2 := stageNarrow ordered sel1 req.k_stage1
      match stage2_select resp2 req.k_stage2 with
      | .error e => .error e
      | .ok sel2 =>
        let final := stageNarrow stage2 sel2 req.k_stage2
        .ok { top_idx := top_idx_list.take req.k_faiss
              stage1 := sel1.eraseDups
              result := final.map (toMatched llmCls) }

/-! ## Embedding shard loader (`_load_all_embeddings`)

Each batch file pair yields a vector array (possibly 1-D, reshaped to one
row) and an optional id array (possibly a 0-D scalar, wrapped into a
singleton; defaulting to `np.arange(len(embeddings_batch))` — note: the
length of the array *before* reshaping — when the id file is absent). -/

/-- The loaded `embeddings_batch` ndarray: 1-D or 2-D. -/
inductive EmbArray where
  | one (v : List ℝ)
  | many (m : List (List ℝ))

/-- Shape normalisation: `embeddings_batch.reshape(1, -1)` when 1-D. -/
def toMatrix : EmbArray → List (List ℝ)
  | .one v => [v]
  | .many m => m

/-- Length of the embeddings array before reshaping: the leading-axis
length, as `len(...)` computes it for the default id range. -/
def npLen : EmbArray → Nat
  | .one v => v.length
  | .many m => m.length

/-- The loaded `indices_batch`: a 0-D scalar or a 1-D array. -/
inductive IdArray where
  | scalar (i : Int)
  | arr (l : List Int)

/-- Scalar wrapping: `np.array([indices_batch.item()])`; 1-D arrays flatten
to themselves. -/
def toIdList : IdArray → List Int
  | .scalar i => [i]
  | .arr l => l

/-- One successfully read batch file pair; `ids = none` models an absent
`indices_batch_N.npy` file. -/
structure RawBatch where
  vectors : EmbArray
  ids : Option IdArray

/-- The id sequence before truncation: the id file's contents, or
`np.arange(len(embeddings_batch))`. -/
def batchIds (b : RawBatch) : List Int :=
  match b.ids with
  | some a => toIdList a
  | none => (List.range (npLen b.vectors)).map Int.ofNat

/-- Per-batch processing of `_load_all_embeddings`: shape-normalise, then
truncate both sequences to
`min_size = min(embeddings_batch.shape[0], len(indices_batch.flatten()))`. -/
def processBatch (b : RawBatch) : List (List ℝ) × List Int :=
  let m := toMatrix b.vectors
  let ids := batchIds b
  let minSize := min m.length ids.length
  (m.take minSize, ids.take minSize)

/-- The accumulation loop: `arrays.append(...)` / `ids.extend(...)` over the
batches in ascending batch-number order, then `np.vstack(arrays)`. -/
def loadAllEmbeddings (bs : List RawBatch) : List (List ℝ) × List Int :=
  bs.foldl (fun acc b => (acc.1 ++ (processBatch b).1, acc.2 ++ (processBatch b).2)) ([], [])

/-! ## Vector index (`search_top_k` over module state)

The module state holds `FAISS_AVAILABLE`, `faiss_index` (whose `search`
method we model as the stored graph-search function, returning internal row
positions for a normalized query and a neighbour count) and `vacancy_ids`. -/

structure IndexState where
  faissAvailable : Bool
  index : Option (List ℝ → Nat → List Int)
  vacancyIds : List Int

/-- Sum of squares of the components; the L2 norm is its square root, as
`np.linalg.norm` computes it for a 1-D array. -/
def normSq : List ℝ → ℝ
  | [] => 0
  | x :: t => x * x + normSq t

noncomputable def l2norm (q : List ℝ) : ℝ :=
  Real.sqrt (normSq q)

/-- Elementwise scaling `c * v`. -/
def scale (c : ℝ) (q : List ℝ) : List ℝ :=
  q.map (fun x => c * x)

/-- Top-k search: guard FAISS availability, index presence and a non-empty
id list; reject a zero-norm query; normalize; query the graph for
`min(k, len(vacancy_ids))` neighbours; keep in-range positions and map them
through `vacancy_ids`. -/
noncomputable def search_top_k (st : IndexState) (q : List ℝ) (k : Nat) :
    Except PyError (List Int) :=
  match st.faissAvailable with
  | false => .error (.runtimeError "FAISS not installed")
  | true =>
    match st.index with
    | none => .error (.runtimeError "FAISS index not built. Check embeddings are loaded.")
    | some g =>
      if st.vacancyIds.length = 0 then .error (.runtimeError "No vacancies in index")
      else if l2norm q = 0 then .error (.valueError "Query vector cannot be zero")
      else
        let qn := q.map (fun x => x / l2norm q)
        let positions := g qn (min k st.vacancyIds.length)
        .ok ((positions.filter
              (fun i => decide (0 ≤ i ∧ i < (st.vacancyIds.length : Int)))).map
              (fun i => st.vacancyIds.getD i.toNat 0))

/-! ## Concrete values used to exercise the definitions -/

/-- A vacancy document with a given `idx` and empty text attributes. -/
def vDemo (i : Int) : Vacancy :=
  { idx := i, title := "", description := "", key_skills := "", company := ""
    location := "", salary := "", experience := "", job_type := "", hh_url := "" }

/-- The candidate list of the spec's end-to-end narrowing scenario. -/
def demoCands : List Vacancy := [vDemo 10, vDemo 11, vDemo 12]

/-- A vacancy whose title carries both an Intern keyword and a Head keyword. -/
def vInternHead : Vacancy :=
  { idx := 1, title := "intern head", description := "", key_skills := "", company := ""
    location := "", salary := "", experience := "", job_type := "", hh_url := "" }

/-- A ready index state over a single stored id, with a graph that returns
no positions. -/
def st0 : IndexState :=
  { faissAvailable := true, index := some (fun _ _ => []), vacancyIds := [7] }

/-- The finalist record `match_vacancies` produces for `vDemo 10` when the
classifier oracle fails. -/
def demoMatched : MatchedVacancy :=
  { idx := 10, title := "", company := "", location := "", salary := "", experience := ""
    job_type := "", description := "", key_skills := ""
    hh_url := "https://hh.ru/vacancy/10", seniority_level := "Средний" }

/-- The response of the end-to-end demo run. -/
def demoResp : MatchVacanciesResponse :=
  { top_idx := [10, 11, 12], stage1 := [10, 99], result := [demoMatched] }

/-! ## Helper lemmas -/

theorem byIdx_idx {docs : List Vacancy} {i : Int} {v : Vacancy}
    (h : byIdx docs i = some v) : v.idx = i := by
  unfold byIdx at h
  have hp := List.find?_some h
  exact eq_of_beq hp

theorem mem_fetch_idx {docs : List Vacancy} {ids : List Int} {d : Vacancy}
    (h : d ∈ fetch_vacancies_in_order docs ids) : d.idx ∈ ids := by
  unfold fetch_vacancies_in_order at h
  rcases List.mem_filterMap.mp h with ⟨i, hi, hb⟩
  rw [byIdx_idx hb]
  exact hi

theorem stageNarrow_length (ordered : List Vacancy) (sel : List Int) (k : Nat) :
    (stageNarrow ordered sel k).length ≤ k := by
  unfold stageNarrow
  split
  · exact List.length_take_le _ _
  · exact List.length_take_le _ _

theorem stageNarrow_sublist (ordered : List Vacancy) (sel : List Int) (k : Nat) :
    (stageNarrow ordered sel k).Sublist ordered := by
  unfold stageNarrow
  split
  · exact List.take_sublist _ _
  · exact (List.take_sublist _ _).trans (List.filter_sublist _)

/-! ## Claim theorems -/

/-- C2: `fetch_vacancies_in_order` returns the store's records for exactly
the input ids that are present, in the input order: the fetched id sequence
is the input list filtered to present ids, which is a sublist (hence an
order-preserving subsequence) of the input; absent ids are dropped. -/
theorem fetch_preserves_order (docs : List Vacancy) (ids : List Int) :
    (fetch_vacancies_in_order docs ids).map (fun d => d.idx)
      = ids.filter (fun i => (byIdx docs i).isSome) ∧
    (ids.filter (fun i => (byIdx docs i).isSome)).Sublist ids := by
  constructor
  · induction ids with
    | nil => rfl
    | cons i t ih =>
      unfold fetch_vacancies_in_order at *
      cases h : byIdx docs i with
      | none => simp [List.filterMap_cons, List.filter_cons, h, ih]
      | some v =>
        have hv : v.idx = i := byIdx_idx h
        simp [List.filterMap_cons, List.filter_cons, h, hv, ih]
  · exact List.filter_sublist _

/-- C3: the staged selector truncates strictly to `limit` on every model
outcome, and each narrowing step of the pipeline keeps at most the
caller-specified bound of candidates. -/
theorem select_bounded :
    (∀ (resp : SelectOutcome) (limit : Nat) (sel : List Int),
        stage1_select resp limit = .ok sel → sel.length ≤ limit) ∧
    (∀ (resp : SelectOutcome) (limit : Nat) (sel : List Int),
        stage2_select resp limit = .ok sel → sel.length ≤ limit) ∧
    (∀ (ordered : List Vacancy) (sel : List Int) (k : Nat),
        (stageNarrow ordered sel k).length ≤ k) := by
  have h1 : ∀ (resp : SelectOutcome) (limit : Nat) (sel : List Int),
      stage1_select resp limit = .ok sel → sel.length ≤ limit := by
    intro resp limit sel h
    cases resp with
    | transport msg => exact Except.noConfusion h
    | emptyRaw =>
      injection h with h
      simp [← h]
    | parseFailure =>
      injection h with h
      simp [← h]
    | parsed s =>
      injection h with h
      rw [← h]
      exact List.length_take_le _ _
  exact ⟨h1, fun resp limit sel h => h1 resp limit sel h, stageNarrow_length⟩

/-- C3 witness: a parsed response with three ids and `limit = 2` yields a
list of length at most two. -/
theorem select_bounded_witness :
    stage1_select (.parsed [1, 2, 3]) 2 = .ok [1, 2] ∧ ([1, 2] : List Int).length ≤ 2 :=
  ⟨rfl, select_bounded.1 (.parsed [1, 2, 3]) 2 [1, 2] rfl⟩

/-- C1 counterexample, the spec's own end-to-end scenario: candidates
`[10, 11, 12]`, model selection `[10, 99]`, `limit = 2`.  The filtered list
`[vDemo 10]` is non-empty, so the code keeps it as is and the stage yields
one candidate, strictly fewer than `min 2 3`. -/
theorem stage_fallback_cex :
    (stageNarrow demoCands [10, 99] 2).length < min 2 demoCands.length := by
  decide

/-- C1 amended: the prefix-truncation fallback applies exactly when the
model-selected id set intersected with the input candidates is empty; in
that case the stage returns the first `limit` input candidates, and with a
non-empty input and `limit > 0` the stage output is never empty.  When the
intersection is non-empty but smaller than `min limit (length candidates)`,
the stage keeps just the intersection and may return fewer elements. -/
theorem stage_fallback_on_empty (ordered : List Vacancy) (sel : List Int) (k : Nat) :
    ((ordered.filter (fun d => sel.contains d.idx)).take k = [] →
        stageNarrow ordered sel k = ordered.take k) ∧
    (ordered ≠ [] → 0 < k → stageNarrow ordered sel k ≠ []) := by
  constructor
  · intro h
    unfold stageNarrow
    rw [h]
    simp
  · intro ho hk
    unfold stageNarrow
    split
    next hcond =>
      cases ordered with
      | nil => exact absurd rfl ho
      | cons a t =>
        cases k with
        | zero => omega
        | succ n => simp
    next hcond =>
      intro hnil
      exact hcond (by rw [hnil]; rfl)

/-- C1 amended witness: a fully-disjoint selection over the demo candidates
triggers the prefix fallback and yields a non-empty result. -/
theorem stage_fallback_on_empty_witness :
    stageNarrow demoCands [99] 2 = demoCands.take 2 ∧ stageNarrow demoCands [99] 2 ≠ [] :=
  ⟨(stage_fallback_on_empty demoCands [99] 2).1 (by decide),
   (stage_fallback_on_empty demoCands [99] 2).2 (by decide) (by decide)⟩

theorem keywordLevel_first_match (text : String) :
    keywordLevel text
      = (seniorityTable.find? (fun p => anyWordIn p.1 text)).map (fun p => p.2) := by
  by_cases h1 : anyWordIn internWords text = true <;>
    by_cases h2 : anyWordIn headWords text = true <;>
    by_cases h3 : anyWordIn expertWords text = true <;>
    by_cases h4 : anyWordIn advancedWords text = true <;>
    by_cases h5 : anyWordIn midWords text = true <;>
    by_cases h6 : anyWordIn entryWords text = true <;>
    simp [keywordLevel, seniorityTable, List.find?, h1, h2, h3, h4, h5, h6]

/-- C6: the keyword cascade is first-match-wins over the precedence table
Intern, Head, Expert, Advanced, Mid, Entry; in particular any candidate
whose combined lower-cased text contains both an Intern keyword and a Head
keyword is classified as Intern, for every classifier oracle. -/
theorem classifier_intern_precedence (llm : Option String) (v : Vacancy)
    (hi : anyWordIn internWords (combinedText v) = true)
    (_hh : anyWordIn headWords (combinedText v) = true) :
    determine_seniority_level llm v = "Стажер" ∧
    (∀ text, keywordLevel text
        = (seniorityTable.find? (fun p => anyWordIn p.1 text)).map (fun p => p.2)) := by
  refine ⟨?_, keywordLevel_first_match⟩
  unfold determine_seniority_level keywordLevel
  rw [if_pos hi]

/-- C6 witness: a vacancy titled "intern head" matches both keyword sets and
is classified as Intern. -/
theorem classifier_intern_precedence_witness :
    anyWordIn internWords (combinedText vInternHead) = true ∧
    anyWordIn headWords (combinedText vInternHead) = true ∧
    determine_seniority_level none vInternHead = "Стажер" :=
  ⟨by decide, by decide,
    (classifier_intern_precedence none vInternHead (by decide) (by decide)).1⟩

/-- C8: when no keyword matches and the assisting model either raises (the
oracle is `none`) or answers free text containing none of the six label
strings under case-insensitive substring matching, the classifier returns
Mid; the function is total, so classification never aborts a request. -/
theorem classifier_defaults_mid (llm : Option String) (v : Vacancy)
    (hk : keywordLevel (combinedText v) = none)
    (hl : llm = none ∨ ∃ ans, llm = some ans ∧
        validLevels.find? (fun lvl => containsWord (pyLower ans) (pyLower lvl)) = none) :
    determine_seniority_level llm v = "Средний" := by
  unfold determine_seniority_level
  rw [hk]
  rcases hl with rfl | ⟨ans, rfl, hfind⟩
  · rfl
  · show llmLevel ans = "Средний"
    unfold llmLevel
    rw [hfind]

/-- C8 witness: an all-empty vacancy matches no keyword, and a model answer
"abc" contains no label, so the result defaults to Mid. -/
theorem classifier_defaults_mid_witness :
    keywordLevel (combinedText (vDemo 1)) = none ∧
    determine_seniority_level (some "abc") (vDemo 1) = "Средний" :=
  ⟨by decide, classifier_defaults_mid (some "abc") (vDemo 1) (by decide)
     (Or.inr ⟨"abc", rfl, by decide⟩)⟩

theorem processBatch_length_eq (b : RawBatch) :
    (processBatch b).1.length = (processBatch b).2.length := by
  simp only [processBatch, List.length_take]
  omega

theorem loadAllEmbeddings_go (bs : List RawBatch) (a1 : List (List ℝ)) (a2 : List Int) :
    bs.foldl (fun acc b => (acc.1 ++ (processBatch b).1, acc.2 ++ (processBatch b).2)) (a1, a2)
      = (a1 ++ (bs.map (fun b => (processBatch b).1)).flatten,
          a2 ++ (bs.map (fun b => (processBatch b).2)).flatten) := by
  induction bs generalizing a1 a2 with
  | nil => simp
  | cons b t ih => simp [ih, List.append_assoc]

/-- C7: per batch, vectors and ids are truncated to the shorter length (the
id sequence defaulting to `0..n-1` over the pre-reshape array length when
the id file is absent), so each processed batch — and the row-wise
concatenation of all batches, in batch order — carries equally long vector
and id sequences. -/
theorem loader_truncation_invariant :
    (∀ b : RawBatch,
        processBatch b
          = ((toMatrix b.vectors).take (min (toMatrix b.vectors).length (batchIds b).length),
              (batchIds b).take (min (toMatrix b.vectors).length (batchIds b).length)) ∧
        (processBatch b).1.length = (processBatch b).2.length) ∧
    (∀ e : EmbArray,
        batchIds { vectors := e, ids := none } = (List.range (npLen e)).map Int.ofNat) ∧
    (∀ bs : List RawBatch,
        (loadAllEmbeddings bs).1.length = (loadAllEmbeddings bs).2.length ∧
        (loadAllEmbeddings bs).1 = (bs.map (fun b => (processBatch b).1)).flatten ∧
        (loadAllEmbeddings bs).2 = (bs.map (fun b => (processBatch b).2)).flatten) := by
  refine ⟨fun b => ⟨rfl, processBatch_length_eq b⟩, fun e => rfl, fun bs => ?_⟩
  have hflat : ∀ ts : List RawBatch,
      ((ts.map (fun b => (processBatch b).1)).flatten).length
        = ((ts.map (fun b => (processBatch b).2)).flatten).length := by
    intro ts
    induction ts with
    | nil => rfl
    | cons b t ih =>
      simp only [List.map_cons, List.flatten_cons, List.length_append, ih,
        processBatch_length_eq b]
  have hgo := loadAllEmbeddings_go bs [] []
  unfold loadAllEmbeddings
  rw [hgo]
  exact ⟨by simpa using hflat bs, by simp, by simp⟩

theorem normSq_scale (c : ℝ) (q : List ℝ) : normSq (scale c q) = c ^ 2 * normSq q := by
  induction q with
  | nil => simp [scale, normSq]
  | cons x t ih =>
    simp only [scale, List.map_cons, normSq] at *
    rw [ih]
    ring

theorem l2norm_scale {c : ℝ} (hc : 0 ≤ c) (q : List ℝ) :
    l2norm (scale c q) = c * l2norm q := by
  unfold l2norm
  rw [normSq_scale, Real.sqrt_mul (by positivity), Real.sqrt_sq hc]

/-- C4: on a ready index (FAISS present, index built, non-empty id list) a
query whose computed L2 norm is exactly zero is rejected with the
`ValueError` of `search_top_k`, and a query with non-zero norm never takes
that branch: the search returns an id list. -/
theorem search_rejects_zero_query (st : IndexState) (g : List ℝ → Nat → List Int)
    (q : List ℝ) (k : Nat)
    (ha : st.faissAvailable = true) (hg : st.index = some g) (hn : st.vacancyIds ≠ []) :
    (l2norm q = 0 → search_top_k st q k = .error (.valueError "Query vector cannot be zero")) ∧
    (l2norm q ≠ 0 → ∃ ids, search_top_k st q k = .ok ids) := by
  obtain ⟨fa, ix, vids⟩ := st
  cases ha
  cases hg
  have hlen : ¬ vids.length = 0 := by
    simpa [List.length_eq_zero] using hn
  constructor
  · intro h0
    simp only [search_top_k]
    rw [if_neg hlen, if_pos h0]
  · intro h0
    simp only [search_top_k]
    rw [if_neg hlen, if_neg h0]
    exact ⟨_, rfl⟩

/-- C4 witness: over a ready one-element index, the zero query `[0]` is
rejected and the unit query `[1]` is answered. -/
theorem search_rejects_zero_query_witness :
    l2norm [(0 : ℝ)] = 0 ∧
    search_top_k st0 [(0 : ℝ)] 5 = .error (.valueError "Query vector cannot be zero") ∧
    (∃ ids, search_top_k st0 [(1 : ℝ)] 5 = .ok ids) := by
  have h0 : l2norm [(0 : ℝ)] = 0 := by
    simp [l2norm, normSq]
  have h1 : l2norm [(1 : ℝ)] ≠ 0 := by
    simp [l2norm, normSq]
  refine ⟨h0, ?_, ?_⟩
  · exact (search_rejects_zero_query st0 _ [(0 : ℝ)] 5 rfl rfl (by simp [st0])).1 h0
  · exact (search_rejects_zero_query st0 _ [(1 : ℝ)] 5 rfl rfl (by simp [st0])).2 h1

/-- C5: with FAISS present, a search against an unbuilt index fails with the
index-not-built `RuntimeError`, a search with an empty id list fails with
the no-vacancies `RuntimeError`, and a successful search certifies that the
index was built and the id list non-empty — an unavailable index never
yields a result list. -/
theorem search_unbuilt_fails (st : IndexState) (q : List ℝ) (k : Nat)
    (ha : st.faissAvailable = true) :
    (st.index = none → search_top_k st q k
        = .error (.runtimeError "FAISS index not built. Check embeddings are loaded.")) ∧
    (∀ g, st.index = some g → st.vacancyIds = [] →
        search_top_k st q k = .error (.runtimeError "No vacancies in index")) ∧
    (∀ ids, search_top_k st q k = .ok ids → st.index ≠ none ∧ st.vacancyIds ≠ []) := by
  obtain ⟨fa, ix, vids⟩ := st
  cases ha
  refine ⟨?_, ?_, ?_⟩
  · intro hnone
    cases hnone
    simp [search_top_k]
  · intro g hg hvac
    cases hg
    cases hvac
    simp [search_top_k]
  · intro ids hok
    cases ix with
    | none => exact absurd hok (by simp [search_top_k])
    | some g =>
      refine ⟨by simp, ?_⟩
      intro hvac
      cases hvac
      exact absurd hok (by simp [search_top_k])

/-- C5 witness: the two unavailable states each fail with the corresponding
error. -/
theorem search_unbuilt_fails_witness :
    search_top_k { faissAvailable := true, index := none, vacancyIds := [] } [(1 : ℝ)] 3
      = .error (.runtimeError "FAISS index not built. Check embeddings are loaded.") ∧
    search_top_k { faissAvailable := true, index := some (fun _ _ => []), vacancyIds := [] }
        [(1 : ℝ)] 3
      = .error (.runtimeError "No vacancies in index") :=
  ⟨(search_unbuilt_fails _ [(1 : ℝ)] 3 rfl).1 rfl,
    (search_unbuilt_fails _ [(1 : ℝ)] 3 rfl).2.1 _ rfl rfl⟩

/-- C9: scaling a query by a positive scalar leaves the search result (error
or ordered id list) unchanged, because both queries normalize to the same
unit vector before the graph is consulted. -/
theorem search_scale_invariance (st : IndexState) (q : List ℝ) (k : Nat) (c : ℝ)
    (hc : 0 < c) :
    search_top_k st (scale c q) k = search_top_k st q k := by
  obtain ⟨fa, ix, vids⟩ := st
  cases fa
  · simp [search_top_k]
  · cases ix with
    | none => simp [search_top_k]
    | some g =>
      by_cases hlen : vids.length = 0
      · simp [search_top_k, hlen]
      · have hnorm : l2norm (scale c q) = c * l2norm q := l2norm_scale hc.le q
        by_cases h0 : l2norm q = 0
        · have h0' : l2norm (scale c q) = 0 := by rw [hnorm, h0, mul_zero]
          simp only [search_top_k]
          rw [if_neg hlen, if_pos h0, if_pos h0', if_neg hlen]
        · have h0' : l2norm (scale c q) ≠ 0 := by
            rw [hnorm]
            exact mul_ne_zero (ne_of_gt hc) h0
          have hqn : (scale c q).map (fun x => x / l2norm (scale c q))
              = q.map (fun x => x / l2norm q) := by
            rw [hnorm]
            unfold scale
            rw [List.map_map]
            refine List.map_congr_left ?_
            intro x _
            exact mul_div_mul_left x (l2norm q) (ne_of_gt hc)
          simp only [search_top_k]
          rw [if_neg hlen, if_neg h0', if_neg h0, hqn, if_neg hlen]

/-- C9 witness: doubling the unit query over the demo index leaves the
result unchanged. -/
theorem search_scale_invariance_witness :
    (0 : ℝ) < 2 ∧ search_top_k st0 (scale 2 [(1 : ℝ)]) 3 = search_top_k st0 [(1 : ℝ)] 3 :=
  ⟨by norm_num, search_scale_invariance st0 [(1 : ℝ)] 3 2 (by norm_num)⟩

/-- C10: a completed match request never invents candidates: the result has
at most `k_stage2` entries, every finalist's idx occurs in the id list the
vector search returned, the stage-2 input is an order-preserving sublist of
the fetched candidate list, and the final list is an order-preserving
sublist of the stage-2 input. -/
theorem match_pipeline_no_new_candidates
    (docs : List Vacancy) (top_idx_list : List Int) (resp1 resp2 : SelectOutcome)
    (llmCls : Vacancy → Option String) (req : MatchRequest)
    (resp : MatchVacanciesResponse)
    (h : match_vacancies docs top_idx_list resp1 resp2 llmCls req = .ok resp) :
    resp.result.length ≤ req.k_stage2 ∧
    (∀ m ∈ resp.result, m.idx ∈ top_idx_list) ∧
    (∀ sel1, (stageNarrow (fetch_vacancies_in_order docs top_idx_list) sel1
        req.k_stage1).Sublist (fetch_vacancies_in_order docs top_idx_list)) ∧
    (∀ sel1 sel2,
        (stageNarrow (stageNarrow (fetch_vacancies_in_order docs top_idx_list) sel1
            req.k_stage1) sel2 req.k_stage2).Sublist
          (stageNarrow (fetch_vacancies_in_order docs top_idx_list) sel1 req.k_stage1)) := by
  have hmain : resp.result.length ≤ req.k_stage2 ∧ ∀ m ∈ resp.result, m.idx ∈ top_idx_list := by
    unfold match_vacancies at h
    by_cases he : (fetch_vacancies_in_order docs top_idx_list).isEmpty
    · rw [if_pos he] at h
      injection h with h
      subst h
      exact ⟨Nat.zero_le _, by intro m hm; cases hm⟩
    · rw [if_neg he] at h
      cases h1 : stage1_select resp1 req.k_stage1 with
      | error e =>
        rw [h1] at h
        exact Except.noConfusion h
      | ok sel1 =>
        rw [h1] at h
        cases h2 : stage2_select resp2 req.k_stage2 with
        | error e =>
          rw [h2] at h
          exact Except.noConfusion h
        | ok sel2 =>
          rw [h2] at h
          injection h with h
          subst h
          constructor
          · simp only [List.length_map]
            exact stageNarrow_length _ _ _
          · intro m hm
            simp only [List.mem_map] at hm
            rcases hm with ⟨d, hd, rfl⟩
            have hd1 : d ∈ stageNarrow (fetch_vacancies_in_order docs top_idx_list)
                sel1 req.k_stage1 :=
              (stageNarrow_sublist _ _ _).subset hd
            have hd2 : d ∈ fetch_vacancies_in_order docs top_idx_list :=
              (stageNarrow_sublist _ _ _).subset hd1
            show d.idx ∈ top_idx_list
            exact mem_fetch_idx hd2
  exact ⟨hmain.1, hmain.2, fun sel1 => stageNarrow_sublist _ _ _,
    fun sel1 sel2 => stageNarrow_sublist _ _ _⟩

/-- C10 witness: the demo run (candidates 10, 11, 12; stage 1 keeps 10;
stage 2 keeps 10) completes with one finalist whose idx came from the
search results. -/
theorem match_pipeline_no_new_candidates_witness :
    match_vacancies demoCands [10, 11, 12] (.parsed [10, 99]) (.parsed [10])
        (fun _ => none) ⟨100, 2, 1⟩ = .ok demoResp ∧
    demoResp.result.length ≤ 1 ∧ ∀ m ∈ demoResp.result, m.idx ∈ [10, 11, 12] := by
  have h : match_vacancies demoCands [10, 11, 12] (.parsed [10, 99]) (.parsed [10])
      (fun _ => none) ⟨100, 2, 1⟩ = .ok demoResp := by rfl
  have hmain := match_pipeline_no_new_candidates demoCands [10, 11, 12] (.parsed [10, 99])
    (.parsed [10]) (fun _ => none) ⟨100, 2, 1⟩ demoResp h
  exact ⟨h, hmain.1, hmain.2.1⟩

end CareerCoach
